import Mathlib

/-!
Shallow embedding of the py-lz4framed frame codec engine
(src/lz4framed/py-lz4framed.c).

The engine drives the external LZ4F primitive (lz4frame library, declared a
non-goal / external dependency by the spec).  The primitive is therefore kept
abstract: compression-side calls live in a `CmpCodec` record and
decompression-side calls in a `DecCodec` record.  All engine logic — argument
validation and its order, preference construction, output-buffer sizing, the
buffer-doubling loop of one-shot `decompress`, and the chunked loop of
`decompress_update` — is translated line by line from the C source.

Byte buffers are `List Nat`; `size_t` / `Py_ssize_t` quantities are `Nat`;
C `int` arguments arriving from Python are `Int`.  Python exceptions are the
`PyErr` type.  The `while` loops of the C source become fueled recursions
returning `Option` (`none` = ran out of fuel; the C loops have no bound of
their own).
-/

namespace Lz4Framed

/-- Python-level errors raised by the extension module.
`noData` is the dedicated `Lz4FramedNoDataError`; `valueError` is
`PyExc_ValueError` with the C format string's fixed part as message;
`lz4f` is `Lz4FramedError` carrying the primitive's error code. -/
inductive PyErr where
  | noData
  | valueError (msg : String)
  | lz4f (code : Nat)
  | memoryError
  deriving Repr, DecidableEq

deriving instance DecidableEq for Except

/-! ### Block size identifiers (values from the external lz4frame.h enum;
the table arithmetic `id -= 4` in `_lz4f_block_size_from_id` relies on
`LZ4F_max64KB = 4`). -/

def LZ4F_default : Int := 0
def LZ4F_max64KB : Int := 4
def LZ4F_max256KB : Int := 5
def LZ4F_max1MB : Int := 6
def LZ4F_max4MB : Int := 7

/-- `LZ4HC_CLEVEL_MAX` from the external lz4hc.h (12 in the bundled lz4);
exported by the module as `LZ4F_COMPRESSION_MAX`. -/
def LZ4_COMPRESSION_MAX : Int := 12

/-- `LZ4F_HEADER_SIZE_MAX` from the external lz4frame.h. -/
def LZ4F_HEADER_SIZE_MAX : Nat := 19

/-- `_valid_lz4f_block_size_id`: the switch accepting exactly the five
enumerated identifiers. -/
def validBlockSizeId (id : Int) : Bool :=
  id == LZ4F_default || id == LZ4F_max64KB || id == LZ4F_max256KB ||
  id == LZ4F_max1MB || id == LZ4F_max4MB

/-- The static `blockSizes` table of `_lz4f_block_size_from_id`:
`{ 64 KB, 256 KB, 1 MB, 4 MB }`. -/
def blockSizeTable : List Nat := [64 * 1024, 256 * 1024, 1024 * 1024, 4 * 1024 * 1024]

/-- `_lz4f_block_size_from_id`: 0 for invalid ids, otherwise the table entry
at `id - 4` after mapping `LZ4F_default` to `LZ4F_max64KB`. -/
def lz4fBlockSizeFromId (id : Int) : Nat :=
  if validBlockSizeId id = false then 0
  else
    let id2 := if id = LZ4F_default then LZ4F_max64KB else id
    blockSizeTable.getD (id2 - 4).toNat 0

/-- `_lz4framed_get_block_size`: rejects invalid ids with `ValueError`,
otherwise returns `_lz4f_block_size_from_id`. -/
def get_block_size (id : Int) : Except PyErr Nat :=
  if validBlockSizeId id = false then .error (.valueError "id invalid")
  else .ok (lz4fBlockSizeFromId id)

/-! ### Compression preferences (`LZ4F_preferences_t` as used by the module) -/

/-- The fields of `LZ4F_preferences_t` that the module reads or writes.
Enum-valued flags are booleans (`LZ4F_blockLinked` etc. are two-valued
where used here). -/
structure CmpPrefs where
  contentSize : Nat
  blockLinked : Bool
  blockSizeID : Int
  blockChecksum : Bool
  contentChecksum : Bool
  compressionLevel : Int
  autoFlush : Bool
  deriving Repr, DecidableEq

/-- `prefs_defaults`: the all-zero preference record (`blockMode 0` is
`LZ4F_blockLinked`). -/
def prefsDefaults : CmpPrefs :=
  { contentSize := 0, blockLinked := true, blockSizeID := 0, blockChecksum := false,
    contentChecksum := false, compressionLevel := 0, autoFlush := false }

/-- The preference record built by `_lz4framed_compress` (lines 268-273):
`contentSize` is the input length, the flag fields come from the arguments,
and `autoFlush` keeps its default. -/
def compressPrefs (len : Nat) (bid : Int) (linked checksum : Bool) (lvl : Int)
    (bck : Bool) : CmpPrefs :=
  { prefsDefaults with
    contentSize := len, blockLinked := linked, blockSizeID := bid,
    blockChecksum := bck, contentChecksum := checksum, compressionLevel := lvl }

/-! ### Abstract compression primitive (external lz4frame library) -/

/-- The compression-side LZ4F entry points the module calls, abstracted.
`γ` is the state of a native `LZ4F_compressionContext_t`.  Size-returning
calls take the destination capacity the engine allocated and return the
bytes actually produced (the C code truncates the buffer to that length). -/
structure CmpCodec (γ : Type) where
  compressFrameBound : Nat → CmpPrefs → Nat
  compressFrame : Nat → List Nat → CmpPrefs → Except PyErr (List Nat)
  compressBound : Nat → CmpPrefs → Nat
  compressBegin : γ → Nat → CmpPrefs → Except PyErr (List Nat × γ)
  compressUpdate : γ → Nat → List Nat → Except PyErr (List Nat × γ)

/-- `_lz4f_cctx_t`: native context state plus the preferences stored by
`compress_begin` (the lock is concurrency-only and not modelled). -/
structure CCtx (γ : Type) where
  prefs : CmpPrefs
  cst : γ

/-- Post-validation body of `_lz4framed_compress`: build the preferences,
compute `LZ4F_compressFrameBound`, and run `LZ4F_compressFrame` into a
buffer of that size (the result is the truncated output). -/
def compress_run (cc : CmpCodec γ) (b : List Nat) (bid : Int) (linked checksum : Bool)
    (lvl : Int) (bck : Bool) : Except PyErr (List Nat) :=
  let prefs := compressPrefs b.length bid linked checksum lvl bck
  cc.compressFrame (cc.compressFrameBound b.length prefs) b prefs

/-- `_lz4framed_compress`: validation in source order — empty input raises
`Lz4FramedNoDataError`, an invalid block size id raises `ValueError`, a
level above `LZ4_COMPRESSION_MAX` raises `ValueError` — then the primitive
is invoked. -/
def compress (cc : CmpCodec γ) (b : List Nat) (bid : Int) (linked checksum : Bool)
    (lvl : Int) (bck : Bool) : Except PyErr (List Nat) :=
  if b.length = 0 then .error .noData
  else if validBlockSizeId bid = false then .error (.valueError "block_size_id invalid")
  else if LZ4_COMPRESSION_MAX < lvl then .error (.valueError "level invalid")
  else compress_run cc b bid linked checksum lvl bck

/-- Post-validation body of `_lz4framed_compress_begin`: store the new
preferences in the context (`contentSize` is left untouched, lines 625-630)
and call `LZ4F_compressBegin` with an `LZ4F_HEADER_SIZE_MAX` buffer. -/
def compress_begin_run (cc : CmpCodec γ) (ctx : CCtx γ) (bid : Int)
    (linked checksum autoflush : Bool) (lvl : Int) (bck : Bool) :
    Except PyErr (List Nat × CCtx γ) :=
  let prefs2 : CmpPrefs :=
    { ctx.prefs with
      blockLinked := linked, blockSizeID := bid, blockChecksum := bck,
      contentChecksum := checksum, compressionLevel := lvl, autoFlush := autoflush }
  match cc.compressBegin ctx.cst LZ4F_HEADER_SIZE_MAX prefs2 with
  | .error e => .error e
  | .ok (hdr, st2) => .ok (hdr, ⟨prefs2, st2⟩)

/-- `_lz4framed_compress_begin`: block size id and compression level are
validated (in that order) before any primitive call. -/
def compress_begin (cc : CmpCodec γ) (ctx : CCtx γ) (bid : Int)
    (linked checksum autoflush : Bool) (lvl : Int) (bck : Bool) :
    Except PyErr (List Nat × CCtx γ) :=
  if validBlockSizeId bid = false then .error (.valueError "block_size_id invalid")
  else if LZ4_COMPRESSION_MAX < lvl then .error (.valueError "level invalid")
  else compress_begin_run cc ctx bid linked checksum autoflush lvl bck

/-- `_lz4framed_compress_update`: empty input raises `Lz4FramedNoDataError`
before any primitive call; otherwise `LZ4F_compressBound` sizes the buffer
from the context's stored preferences and `LZ4F_compressUpdate` runs. -/
def compress_update (cc : CmpCodec γ) (ctx : CCtx γ) (b : List Nat) :
    Except PyErr (List Nat × CCtx γ) :=
  if b.length = 0 then .error .noData
  else
    match cc.compressUpdate ctx.cst (cc.compressBound b.length ctx.prefs) b with
    | .error e => .error e
    | .ok (out, st2) => .ok (out, ⟨ctx.prefs, st2⟩)

/-! ### Abstract decompression primitive (external lz4frame library) -/

/-- The fields of `LZ4F_frameInfo_t` that the module reads.
`contentSize = 0` means the frame does not declare its uncompressed length. -/
structure FrameInfoT where
  contentSize : Nat
  blockSizeID : Int
  blockLinked : Bool
  contentChecksum : Bool
  deriving Repr, DecidableEq

/-- One `LZ4F_decompress` call's outputs: the bytes written to the
destination, the count of source bytes consumed, the returned input-size
hint (0 = frame fully decoded), and the advanced native state. -/
structure StepOut (σ : Type) where
  written : List Nat
  consumed : Nat
  hint : Nat
  state : σ
  deriving Repr, DecidableEq

/-- The decompression-side LZ4F entry points, abstracted.  `σ` is the state
of a native `LZ4F_decompressionContext_t`.  `getFrameInfo` returns the frame
info, the header bytes consumed, the input-size hint and the advanced state;
`decompressStep` takes the state, the `stableDst` option flag, the
destination capacity and the available source bytes. -/
structure DecCodec (σ : Type) where
  getFrameInfo : List Nat → Except PyErr (FrameInfoT × Nat × Nat × σ)
  decompressStep : σ → Bool → Nat → List Nat → Except PyErr (StepOut σ)

/-! ### One-shot decompress (`_lz4framed_decompress`) -/

/-- Initial output buffer size (lines 375-382): the declared content size
when known, else `MAX((size_t) buffer_size, input_remaining)`. -/
def initialOutputLen (contentSize : Nat) (bufferSize : Int) (remaining : Nat) : Nat :=
  if contentSize ≠ 0 then contentSize else max bufferSize.toNat remaining

/-- State of the `while (1)` decode loop of `_lz4framed_decompress`.
`acc` is the bytes written into the output buffer so far, `outLen` the
current buffer capacity (`output_len`), `outRem` the free space at its end
(`output_remaining`), `inp` the unconsumed input.  `warns` counts
`RuntimeWarning`s issued and `growths` records each `(old, new)` capacity
change — instrumentation of behavior the C code performs in place. -/
structure DecLoop (σ : Type) where
  acc : List Nat
  outLen : Nat
  outRem : Nat
  inp : List Nat
  warns : Nat
  growths : List (Nat × Nat)
  st : σ
  deriving Repr, DecidableEq

/-- Outcome of one iteration of the decode loop. -/
inductive DecStep (σ : Type) where
  | done (bytes : List Nat) (warns : Nat) (growths : List (Nat × Nat))
  | next (s : DecLoop σ)
  | fail (e : PyErr)
  deriving Repr, DecidableEq

/-- One iteration of the decode loop (lines 389-425): call the primitive
with the current cursors; on hint 0 truncate the buffer to the bytes
produced and finish; otherwise advance the input cursor and either — input
remaining — warn when the frame declared a content size, then double the
buffer, or — input exhausted — fail with `ValueError("frame incomplete")`. -/
def decompressBody (dc : DecCodec σ) (contentKnown stable : Bool) (s : DecLoop σ) :
    DecStep σ :=
  match dc.decompressStep s.st stable s.outRem s.inp with
  | .error e => .fail e
  | .ok out =>
    let acc2 := s.acc ++ out.written
    let outRem2 := s.outRem - out.written.length
    if out.hint = 0 then
      .done (acc2.take (s.outLen - outRem2)) s.warns s.growths
    else
      let inp2 := s.inp.drop out.consumed
      if inp2.length ≠ 0 then
        .next { acc := acc2, outLen := s.outLen * 2, outRem := outRem2 + s.outLen,
                inp := inp2, warns := s.warns + (if contentKnown then 1 else 0),
                growths := s.growths ++ [(s.outLen, s.outLen * 2)], st := out.state }
      else
        .fail (.valueError "frame incomplete")

/-- The fueled decode loop. -/
def decompressLoop (dc : DecCodec σ) (contentKnown stable : Bool) :
    Nat → DecLoop σ → Option (Except PyErr (List Nat × Nat × List (Nat × Nat)))
  | 0, _ => none
  | fuel + 1, s =>
    match decompressBody dc contentKnown stable s with
    | .done bytes warns growths => some (.ok (bytes, warns, growths))
    | .fail e => some (.error e)
    | .next s2 => decompressLoop dc contentKnown stable fuel s2

/-- Result of a successful one-shot decompression, instrumented with the
warning count, the growth events, the initial buffer capacity and the
`stableDst` flag that was passed to the primitive. -/
structure DecRun where
  bytes : List Nat
  warns : Nat
  growths : List (Nat × Nat)
  initLen : Nat
  stable : Bool
  deriving Repr, DecidableEq

/-- `_lz4framed_decompress`, instrumented: empty input raises
`Lz4FramedNoDataError` and a non-positive `buffer_size` raises `ValueError`
(lines 358-365, in that order, before any primitive call); then
`LZ4F_getFrameInfo` parses the header, the initial buffer is sized, and the
decode loop runs with `opt.stableDst` set exactly when the content size is
known. -/
def decompressCore (dc : DecCodec σ) (fuel : Nat) (input : List Nat)
    (bufferSize : Int) : Option (Except PyErr DecRun) :=
  if input.length = 0 then some (.error .noData)
  else if bufferSize ≤ 0 then some (.error (.valueError "buffer_size invalid"))
  else
    match dc.getFrameInfo input with
    | .error e => some (.error e)
    | .ok (info, consumed, _hint, s0) =>
      let rest := input.drop consumed
      let contentKnown : Bool := decide (info.contentSize ≠ 0)
      let outLen0 := initialOutputLen info.contentSize bufferSize rest.length
      match decompressLoop dc contentKnown contentKnown fuel
          ⟨[], outLen0, outLen0, rest, 0, [], s0⟩ with
      | none => none
      | some (.error e) => some (.error e)
      | some (.ok (bytes, warns, growths)) =>
        some (.ok ⟨bytes, warns, growths, outLen0, contentKnown⟩)

/-- `_lz4framed_decompress` as the caller sees it: just the output bytes. -/
def decompress (dc : DecCodec σ) (fuel : Nat) (input : List Nat)
    (bufferSize : Int) : Option (Except PyErr (List Nat)) :=
  (decompressCore dc fuel input bufferSize).map (·.map (·.bytes))

/-! ### Chunked decompression (`_lz4framed_decompress_update`) -/

/-- The `chunk_len` argument parse: the variable is declared
`size_t chunk_len = 65536` but filled through the `"i"` (C `int`) converter,
which stores a 4-byte `int` over the low half of the 8-byte variable
(little-endian, 64-bit model; the high half stays 0 from the initializer).
A negative Python argument therefore arrives as a large positive `size_t`. -/
def storeIntIntoSizeT (v : Int) : Nat := (v % (2 ^ 32 : Int)).toNat

/-- State of the decode loop of `_lz4framed_decompress_update`.
`chunks` is the Python list built so far (data chunks only), `chunkAcc` the
bytes written into the current chunk, `chunkRem` its free space, `hint` the
last input-size hint (initialized to 1, line 895). -/
structure DUState (σ : Type) where
  st : σ
  inp : List Nat
  hint : Nat
  chunkRem : Nat
  chunkAcc : List Nat
  chunks : List (List Nat)
  deriving Repr, DecidableEq

/-- Result of the decode loop of `_lz4framed_decompress_update`, after the
final partial chunk is truncated and appended (when nonempty). -/
structure DUResult (σ : Type) where
  chunks : List (List Nat)
  hint : Nat
  leftover : List Nat
  st : σ
  deriving Repr, DecidableEq

/-- The `while (input_remaining && input_size_hint)` loop (lines 941-963)
plus the final-chunk handling (lines 968-971): when the current chunk is
full it is appended and a fresh `chunk_len`-sized chunk started; each
`LZ4F_decompress` call gets the current chunk's free space and the remaining
input; on exit the final chunk is truncated to the bytes it holds and
appended only if that is nonzero. -/
def duLoop (dc : DecCodec σ) (chunkLen : Nat) :
    Nat → DUState σ → Option (Except PyErr (DUResult σ))
  | 0, _ => none
  | fuel + 1, s =>
    if s.inp.length ≠ 0 ∧ s.hint ≠ 0 then
      let chunks2 := if s.chunkRem = 0 then s.chunks ++ [s.chunkAcc] else s.chunks
      let chunkAcc2 := if s.chunkRem = 0 then ([] : List Nat) else s.chunkAcc
      let chunkRem2 := if s.chunkRem = 0 then chunkLen else s.chunkRem
      match dc.decompressStep s.st false chunkRem2 s.inp with
      | .error e => some (.error e)
      | .ok out =>
        duLoop dc chunkLen fuel
          ⟨out.state, s.inp.drop out.consumed, out.hint,
           chunkRem2 - out.written.length, chunkAcc2 ++ out.written, chunks2⟩
    else
      let final :=
        if s.chunkRem < chunkLen then s.chunks ++ [s.chunkAcc.take (chunkLen - s.chunkRem)]
        else s.chunks
      some (.ok ⟨final, s.hint, s.inp, s.st⟩)

/-- `_lz4framed_decompress_update`: empty input raises
`Lz4FramedNoDataError`, then `chunk_len <= 0` — on the `size_t` variable —
raises `ValueError` (lines 917-924, in that order, before any primitive
call); the loop then decodes into fixed-size chunks and the returned Python
list is the data chunks followed by the final input-size hint. -/
def decompress_update (dc : DecCodec σ) (st : σ) (b : List Nat)
    (chunkLenArg : Int) (fuel : Nat) :
    Option (Except PyErr (List (List Nat ⊕ Nat) × σ)) :=
  if b.length = 0 then some (.error .noData)
  else
    let chunkLen := storeIntIntoSizeT chunkLenArg
    if chunkLen ≤ 0 then some (.error (.valueError "chunk_len invalid"))
    else
      match duLoop dc chunkLen fuel ⟨st, b, 1, chunkLen, [], []⟩ with
      | none => none
      | some (.error e) => some (.error e)
      | some (.ok r) =>
        some (.ok ((r.chunks.map Sum.inl) ++ [Sum.inr r.hint], r.st))

/-! ### Concrete codec instances for witnesses

The theorems below are parametric in the external primitive; these small
concrete instances let each theorem be exercised at explicit inputs.  The
toy frame format is: one header byte holding the payload length, the raw
payload, then a 4-byte trailer. -/

def toyFrame (b : List Nat) : List Nat := b.length % 256 :: (b ++ [0, 0, 0, 0])

def toyGetFrameInfo (inp : List Nat) :
    Except PyErr (FrameInfoT × Nat × Nat × Option Nat) :=
  match inp with
  | [] => .error (.lz4f 16)
  | n :: rest => .ok (⟨n, 4, true, false⟩, 1, rest.length, some n)

def toyPayload (n cap : Nat) (src : List Nat) (off : Nat) :
    Except PyErr (StepOut (Option Nat)) :=
  if n + 4 ≤ src.length then
    if n ≤ cap then .ok ⟨src.take n, off + n + 4, 0, some n⟩
    else .ok ⟨src.take cap, off, n + 4, some n⟩
  else .ok ⟨[], off + src.length, n + 4 - src.length, some n⟩

def toyStep (s : Option Nat) (_stable : Bool) (cap : Nat) (src : List Nat) :
    Except PyErr (StepOut (Option Nat)) :=
  match s with
  | none =>
    match src with
    | [] => .ok ⟨[], 0, 1, none⟩
    | n :: rest => toyPayload n cap rest 1
  | some n => toyPayload n cap src 0

def tdec : DecCodec (Option Nat) := ⟨toyGetFrameInfo, toyStep⟩

def tcmp : CmpCodec Unit where
  compressFrameBound := fun n _ => n + 5
  compressFrame := fun cap b _ =>
    if (toyFrame b).length ≤ cap then .ok (toyFrame b) else .error (.lz4f 11)
  compressBound := fun n _ => n + 5
  compressBegin := fun _ _ _ => .ok ([1], ())
  compressUpdate := fun _ cap b => .ok (b.take cap, ())

/-- A step function that emits one input byte per call: used to exercise the
multi-chunk behavior of `decompress_update`. -/
def wStep (s : Nat) (_stable : Bool) (cap : Nat) (src : List Nat) :
    Except PyErr (StepOut Nat) :=
  .ok ⟨src.take (min 1 cap), min 1 src.length, if src.length ≤ 1 then 0 else 1, s⟩

def wdec : DecCodec Nat := ⟨fun _ => .error (.lz4f 1), wStep⟩

/-- A step function that consumes nothing and keeps hinting for more:
used to exercise the buffer-growth branch of the one-shot decode loop. -/
def gStep (s : Nat) (_stable : Bool) (_cap : Nat) (_src : List Nat) :
    Except PyErr (StepOut Nat) :=
  .ok ⟨[], 0, 1, s⟩

def gdec : DecCodec Nat := ⟨fun _ => .error (.lz4f 1), gStep⟩

/-! ### Theorems -/

/-- C10: `get_block_size` maps the five valid block size identifiers to
exact byte counts — Default and 64KB both to 65536, 256KB to 262144, 1MB to
1048576, 4MB to 4194304 — and every identifier outside these five fails
with the invalid-option `ValueError`. -/
theorem getBlockSize_mapping :
    get_block_size LZ4F_default = .ok 65536
    ∧ get_block_size LZ4F_max64KB = .ok 65536
    ∧ get_block_size LZ4F_max256KB = .ok 262144
    ∧ get_block_size LZ4F_max1MB = .ok 1048576
    ∧ get_block_size LZ4F_max4MB = .ok 4194304
    ∧ ∀ id : Int, id ≠ LZ4F_default → id ≠ LZ4F_max64KB → id ≠ LZ4F_max256KB →
        id ≠ LZ4F_max1MB → id ≠ LZ4F_max4MB →
        get_block_size id = .error (.valueError "id invalid") := by
  refine ⟨by decide, by decide, by decide, by decide, by decide, ?_⟩
  intro id h0 h4 h5 h6 h7
  simp [get_block_size, validBlockSizeId, LZ4F_default, LZ4F_max64KB, LZ4F_max256KB,
        LZ4F_max1MB, LZ4F_max4MB] at h0 h4 h5 h6 h7 ⊢
  simp [h0, h4, h5, h6, h7]

/-- Witness for C10 at the concrete invalid identifier 3. -/
theorem getBlockSize_mapping_witness :
    get_block_size 3 = .error (.valueError "id invalid") :=
  getBlockSize_mapping.2.2.2.2.2 3 (by decide) (by decide) (by decide) (by decide) (by decide)

/-- C3: for `compress` and `compress_begin`, a compression level equal to
`LZ4F_COMPRESSION_MAX` passes validation (the call reduces to the
post-validation primitive invocation), and any strictly greater level fails
with the invalid-option `ValueError` before any primitive call (the result
is the error for every codec). -/
theorem compressionLevel_boundary {γ : Type} (cc : CmpCodec γ) (ctx : CCtx γ)
    (b : List Nat) (bid : Int) (lk ck af bck : Bool)
    (hb : b.length ≠ 0) (hbid : validBlockSizeId bid = true) :
    compress cc b bid lk ck LZ4_COMPRESSION_MAX bck
      = compress_run cc b bid lk ck LZ4_COMPRESSION_MAX bck
    ∧ compress_begin cc ctx bid lk ck af LZ4_COMPRESSION_MAX bck
      = compress_begin_run cc ctx bid lk ck af LZ4_COMPRESSION_MAX bck
    ∧ ∀ lvl : Int, LZ4_COMPRESSION_MAX < lvl →
        compress cc b bid lk ck lvl bck = .error (.valueError "level invalid")
        ∧ compress_begin cc ctx bid lk ck af lvl bck
            = .error (.valueError "level invalid") := by
  refine ⟨?_, ?_, ?_⟩
  · simp [compress, hb, hbid]
  · simp [compress_begin, hbid]
  · intro lvl hlvl
    exact ⟨by simp [compress, hb, hbid, hlvl], by simp [compress_begin, hbid, hlvl]⟩

/-- Witness for C3 at `b = [1]`, the default block size id and levels
`LZ4F_COMPRESSION_MAX` and `LZ4F_COMPRESSION_MAX + 1`. -/
theorem compressionLevel_boundary_witness :
    compress tcmp [1] 0 true false LZ4_COMPRESSION_MAX false
      = compress_run tcmp [1] 0 true false LZ4_COMPRESSION_MAX false
    ∧ compress tcmp [1] 0 true false 13 false = .error (.valueError "level invalid") :=
  ⟨(compressionLevel_boundary tcmp ⟨prefsDefaults, ()⟩ [1] 0 true false false false
      (by decide) (by decide)).1,
   ((compressionLevel_boundary tcmp ⟨prefsDefaults, ()⟩ [1] 0 true false false false
      (by decide) (by decide)).2.2 13 (by decide)).1⟩

/-- C2: for every zero-length input buffer, `compress`, `decompress`,
`compress_update` and `decompress_update` fail with the dedicated
`Lz4FramedNoDataError` — for every codec, i.e. before any primitive call —
and that error is distinct from every other error kind. -/
theorem emptyInput_all_ops {γ σ : Type} (cc : CmpCodec γ) (dc : DecCodec σ)
    (ctx : CCtx γ) (st : σ) (bid lvl bufferSize chunkArg : Int) (lk ck bck : Bool)
    (fuel fuel2 : Nat) :
    compress cc [] bid lk ck lvl bck = .error .noData
    ∧ decompress dc fuel [] bufferSize = some (.error .noData)
    ∧ compress_update cc ctx [] = .error .noData
    ∧ decompress_update dc st [] chunkArg fuel2 = some (.error .noData)
    ∧ (∀ m, PyErr.noData ≠ PyErr.valueError m)
    ∧ (∀ c, PyErr.noData ≠ PyErr.lz4f c)
    ∧ PyErr.noData ≠ PyErr.memoryError := by
  refine ⟨rfl, rfl, rfl, rfl, ?_, ?_, by decide⟩
  · intro m h; exact PyErr.noConfusion h
  · intro c h; exact PyErr.noConfusion h

/-- Witness for C2 at concrete codecs and arguments. -/
theorem emptyInput_all_ops_witness :
    compress tcmp [] 0 true false 0 false = .error .noData
    ∧ decompress tdec 1 [] 1024 = some (.error .noData)
    ∧ compress_update tcmp ⟨prefsDefaults, ()⟩ [] = .error .noData
    ∧ decompress_update tdec none [] 65536 1 = some (.error .noData)
    ∧ PyErr.noData ≠ PyErr.valueError "level invalid" :=
  ⟨(emptyInput_all_ops tcmp tdec ⟨prefsDefaults, ()⟩ none 0 0 1024 65536 true false false 1 1).1,
   (emptyInput_all_ops tcmp tdec ⟨prefsDefaults, ()⟩ none 0 0 1024 65536 true false false 1 1).2.1,
   (emptyInput_all_ops tcmp tdec ⟨prefsDefaults, ()⟩ none 0 0 1024 65536 true false false 1 1).2.2.1,
   (emptyInput_all_ops tcmp tdec ⟨prefsDefaults, ()⟩ none 0 0 1024 65536 true false false 1 1).2.2.2.1,
   (emptyInput_all_ops tcmp tdec ⟨prefsDefaults, ()⟩ none 0 0 1024 65536 true false false 1 1).2.2.2.2.1 "level invalid"⟩

/-- C8 (code bug): the `chunk_len <= 0` guard of `decompress_update` sits on
a `size_t` variable filled through the C `int` converter, so it only fires
for 0.  A negative argument such as -1 arrives as the large positive value
4294967295 and is not rejected: the call proceeds into decoding instead of
failing with the invalid-option `ValueError` the spec requires. -/
theorem decompressUpdate_chunkLen_check_bug :
    storeIntIntoSizeT (-1) = 4294967295
    ∧ decompress_update tdec none [9] 0 3 = some (.error (.valueError "chunk_len invalid"))
    ∧ decompress_update tdec none [9] (-1) 3 = some (.ok ([Sum.inr 13], some 9))
    ∧ decompress_update tdec none [9] (-1) 3
        ≠ some (.error (.valueError "chunk_len invalid")) := by
  refine ⟨by decide, by decide, by decide, by decide⟩

/-- Unfolding helper: `decompressCore` once the three argument checks pass
and the header parse result is known. -/
theorem decompressCore_eq {σ : Type} (dc : DecCodec σ) (fuel : Nat) (input : List Nat)
    (bufferSize : Int) (info : FrameInfoT) (c0 h0 : Nat) (s0 : σ)
    (hne : ¬ input.length = 0) (hbs : ¬ bufferSize ≤ 0)
    (hgfi : dc.getFrameInfo input = .ok (info, c0, h0, s0)) :
    decompressCore dc fuel input bufferSize =
      match decompressLoop dc (decide (info.contentSize ≠ 0)) (decide (info.contentSize ≠ 0))
          fuel ⟨[], initialOutputLen info.contentSize bufferSize (input.drop c0).length,
                initialOutputLen info.contentSize bufferSize (input.drop c0).length,
                input.drop c0, 0, [], s0⟩ with
      | none => none
      | some (.error e) => some (.error e)
      | some (.ok (bytes, warns, growths)) =>
        some (.ok ⟨bytes, warns, growths,
          initialOutputLen info.contentSize bufferSize (input.drop c0).length,
          decide (info.contentSize ≠ 0)⟩) := by
  rw [decompressCore]
  simp only [if_neg hne, if_neg hbs, hgfi]

/-- Unfolding helper: one iteration of the decode loop when the primitive
call's result is known. -/
theorem decompressBody_eq {σ : Type} (dc : DecCodec σ) (ck stb : Bool) (s : DecLoop σ)
    (out : StepOut σ)
    (hstep : dc.decompressStep s.st stb s.outRem s.inp = .ok out) :
    decompressBody dc ck stb s =
      if out.hint = 0 then
        .done ((s.acc ++ out.written).take (s.outLen - (s.outRem - out.written.length)))
          s.warns s.growths
      else if (s.inp.drop out.consumed).length ≠ 0 then
        .next { acc := s.acc ++ out.written, outLen := s.outLen * 2,
                outRem := s.outRem - out.written.length + s.outLen,
                inp := s.inp.drop out.consumed,
                warns := s.warns + (if ck then 1 else 0),
                growths := s.growths ++ [(s.outLen, s.outLen * 2)], st := out.state }
      else .fail (.valueError "frame incomplete") := by
  rw [decompressBody]
  simp only [hstep]

/-- C4: in one-shot `decompress`, when the frame header declares no content
length the initial output buffer size is
`max(bufferSizeHint, remaining input length after the header)`, and every
iteration of the decode loop that continues (its growth branch) doubles the
buffer capacity while preserving all bytes already written. -/
theorem decompress_unknownLength_growth {σ : Type} (dc : DecCodec σ) (input : List Nat)
    (bufferSize : Int) (fuel : Nat) (info : FrameInfoT) (c0 h0 : Nat) (s0 : σ)
    (r : DecRun)
    (hgfi : dc.getFrameInfo input = .ok (info, c0, h0, s0))
    (hcs : info.contentSize = 0)
    (hrun : decompressCore dc fuel input bufferSize = some (.ok r)) :
    r.initLen = max bufferSize.toNat (input.drop c0).length
    ∧ ∀ (ck stb : Bool) (s s2 : DecLoop σ),
        decompressBody dc ck stb s = .next s2 →
        s2.outLen = 2 * s.outLen ∧ ∃ t, s2.acc = s.acc ++ t := by
  constructor
  · have hne : ¬ input.length = 0 := by
      intro h
      rw [decompressCore, if_pos h] at hrun
      simp at hrun
    have hbs : ¬ bufferSize ≤ 0 := by
      intro h
      rw [decompressCore, if_neg hne, if_pos h] at hrun
      simp at hrun
    rw [decompressCore_eq dc fuel input bufferSize info c0 h0 s0 hne hbs hgfi] at hrun
    split at hrun
    · exact absurd hrun (by simp)
    · exact absurd hrun (by simp)
    · simp only [Option.some.injEq, Except.ok.injEq] at hrun
      rw [← hrun]
      simp [initialOutputLen, hcs]
  · intro ck stb s s2 hbody
    cases hstep : dc.decompressStep s.st stb s.outRem s.inp with
    | error e =>
      rw [decompressBody, hstep] at hbody
      exact absurd hbody (by simp)
    | ok out =>
      rw [decompressBody_eq dc ck stb s out hstep] at hbody
      by_cases hh : out.hint = 0
      · rw [if_pos hh] at hbody
        exact absurd hbody (by simp)
      · rw [if_neg hh] at hbody
        by_cases hi : (s.inp.drop out.consumed).length ≠ 0
        · rw [if_pos hi] at hbody
          simp only [DecStep.next.injEq] at hbody
          rw [← hbody]
          exact ⟨Nat.mul_comm s.outLen 2, out.written, rfl⟩
        · rw [if_neg hi] at hbody
          exact absurd hbody (by simp)

/-- Witness for C4: an unknown-length frame whose run succeeds (initial
capacity `max 1024 4 = 1024`), and a concrete loop state on which the
growth branch fires, doubling 2 to 4 and keeping the written bytes. -/
theorem decompress_unknownLength_growth_witness :
    (⟨[], 0, [], 1024, false⟩ : DecRun).initLen
        = max (1024 : Int).toNat (([0, 0, 0, 0, 0] : List Nat).drop 1).length
    ∧ ((⟨[1, 2], 4, 2, [1, 2, 3, 4, 5, 6, 0, 0, 0, 0], 0, [(2, 4)], some 6⟩ : DecLoop (Option Nat)).outLen
         = 2 * (⟨[], 2, 2, [1, 2, 3, 4, 5, 6, 0, 0, 0, 0], 0, [], some 6⟩ : DecLoop (Option Nat)).outLen
       ∧ ∃ t, (⟨[1, 2], 4, 2, [1, 2, 3, 4, 5, 6, 0, 0, 0, 0], 0, [(2, 4)], some 6⟩ : DecLoop (Option Nat)).acc
           = (⟨[], 2, 2, [1, 2, 3, 4, 5, 6, 0, 0, 0, 0], 0, [], some 6⟩ : DecLoop (Option Nat)).acc ++ t) :=
  ⟨(decompress_unknownLength_growth tdec [0, 0, 0, 0, 0] 1024 1 ⟨0, 4, true, false⟩ 1 4
      (some 0) ⟨[], 0, [], 1024, false⟩ rfl rfl rfl).1,
   (decompress_unknownLength_growth tdec [0, 0, 0, 0, 0] 1024 1 ⟨0, 4, true, false⟩ 1 4
      (some 0) ⟨[], 0, [], 1024, false⟩ rfl rfl rfl).2 false false
      ⟨[], 2, 2, [1, 2, 3, 4, 5, 6, 0, 0, 0, 0], 0, [], some 6⟩
      ⟨[1, 2], 4, 2, [1, 2, 3, 4, 5, 6, 0, 0, 0, 0], 0, [(2, 4)], some 6⟩ rfl⟩

/-- C5: in one-shot `decompress`, a known (nonzero) declared content length
means exactly that many output bytes are allocated up front, the primitive
is called with the stable-destination flag set, and — when the primitive
completes on that buffer (first call reports hint 0) — no buffer growth
occurs. -/
theorem decompress_knownLength_fastPath {σ : Type} (dc : DecCodec σ) (input : List Nat)
    (bufferSize : Int) (fuel : Nat) (info : FrameInfoT) (c0 h0 k : Nat) (s0 s1 : σ)
    (w : List Nat)
    (hne : ¬ input.length = 0) (hbs : ¬ bufferSize ≤ 0)
    (hgfi : dc.getFrameInfo input = .ok (info, c0, h0, s0))
    (hcs : info.contentSize ≠ 0)
    (hstep : dc.decompressStep s0 true info.contentSize (input.drop c0)
               = .ok ⟨w, k, 0, s1⟩) :
    ∃ r : DecRun, decompressCore dc (fuel + 1) input bufferSize = some (.ok r)
      ∧ r.initLen = info.contentSize ∧ r.stable = true ∧ r.growths = [] := by
  have hck : decide (info.contentSize ≠ 0) = true := by simp [hcs]
  have hL : initialOutputLen info.contentSize bufferSize (input.drop c0).length
      = info.contentSize := by
    rw [initialOutputLen, if_pos hcs]
  rw [decompressCore_eq dc (fuel + 1) input bufferSize info c0 h0 s0 hne hbs hgfi]
  rw [decompressLoop]
  rw [show (⟨[], initialOutputLen info.contentSize bufferSize (input.drop c0).length,
        initialOutputLen info.contentSize bufferSize (input.drop c0).length,
        input.drop c0, 0, [], s0⟩ : DecLoop σ)
      = ⟨[], info.contentSize, info.contentSize, input.drop c0, 0, [], s0⟩ by rw [hL]]
  rw [hck]
  rw [decompressBody_eq dc true true ⟨[], info.contentSize, info.contentSize,
        input.drop c0, 0, [], s0⟩ ⟨w, k, 0, s1⟩ hstep]
  simp only [if_pos rfl]
  exact ⟨_, rfl, by rw [hL], rfl, rfl⟩

/-- Witness for C5: the toy frame for payload `[1,2,3]` declares length 3;
the run allocates exactly 3 bytes, passes the stable flag and never grows. -/
theorem decompress_knownLength_fastPath_witness :
    ∃ r : DecRun, decompressCore tdec 1 [3, 1, 2, 3, 0, 0, 0, 0] 1024 = some (.ok r)
      ∧ r.initLen = 3 ∧ r.stable = true ∧ r.growths = [] :=
  decompress_knownLength_fastPath tdec [3, 1, 2, 3, 0, 0, 0, 0] 1024 0 ⟨3, 4, true, false⟩
    1 7 7 (some 3) (some 3) [1, 2, 3] (by decide) (by decide) rfl (by decide) rfl

/-- C6: in the decode loop of one-shot `decompress` with a declared content
length, needing to grow the buffer (nonzero hint with input left) emits a
non-fatal `RuntimeWarning` and continues with the doubled buffer — the
iteration result is a continuation, not an error. -/
theorem decompress_contentSize_mismatch_warning {σ : Type} (dc : DecCodec σ)
    (stb : Bool) (s : DecLoop σ) (out : StepOut σ)
    (hstep : dc.decompressStep s.st stb s.outRem s.inp = .ok out)
    (hhint : out.hint ≠ 0)
    (hleft : (s.inp.drop out.consumed).length ≠ 0) :
    decompressBody dc true stb s = .next
      { acc := s.acc ++ out.written, outLen := s.outLen * 2,
        outRem := s.outRem - out.written.length + s.outLen,
        inp := s.inp.drop out.consumed, warns := s.warns + 1,
        growths := s.growths ++ [(s.outLen, s.outLen * 2)], st := out.state } := by
  rw [decompressBody_eq dc true stb s out hstep, if_neg hhint, if_pos hleft]
  simp

/-- Witness for C6: a primitive call that consumes nothing and keeps
hinting makes the loop warn once and double 4 to 8. -/
theorem decompress_contentSize_mismatch_warning_witness :
    decompressBody gdec true false ⟨[], 4, 4, [9], 0, [], 0⟩ = .next
      { acc := [] ++ ([] : List Nat), outLen := 4 * 2, outRem := 4 - 0 + 4,
        inp := ([9] : List Nat).drop 0, warns := 0 + 1,
        growths := [] ++ [(4, 4 * 2)], st := 0 } :=
  decompress_contentSize_mismatch_warning gdec false ⟨[], 4, 4, [9], 0, [], 0⟩
    ⟨[], 0, 1, 0⟩ rfl (by decide) (by decide)

/-- C7: in one-shot `decompress`, when the primitive consumes all remaining
input yet still reports a nonzero input hint, the call fails with
`ValueError("frame incomplete")`. -/
theorem decompress_frameIncomplete {σ : Type} (dc : DecCodec σ) (input : List Nat)
    (bufferSize : Int) (fuel : Nat) (info : FrameInfoT) (c0 h0 : Nat) (s0 : σ)
    (out : StepOut σ)
    (hne : ¬ input.length = 0) (hbs : ¬ bufferSize ≤ 0)
    (hgfi : dc.getFrameInfo input = .ok (info, c0, h0, s0))
    (hstep : dc.decompressStep s0 (decide (info.contentSize ≠ 0))
        (initialOutputLen info.contentSize bufferSize (input.drop c0).length)
        (input.drop c0) = .ok out)
    (hcons : (input.drop c0).length ≤ out.consumed)
    (hhint : out.hint ≠ 0) :
    decompressCore dc (fuel + 1) input bufferSize
      = some (.error (.valueError "frame incomplete")) := by
  have hdrop : ((input.drop c0).drop out.consumed).length = 0 := by
    simp only [List.length_drop] at hcons ⊢
    omega
  rw [decompressCore_eq dc (fuel + 1) input bufferSize info c0 h0 s0 hne hbs hgfi]
  rw [decompressLoop]
  rw [decompressBody_eq dc _ _ _ out hstep]
  rw [if_neg hhint]
  simp only [hdrop, ne_eq, not_true_eq_false, if_false]

/-- Witness for C7: the valid toy frame for `[1,2,3]` truncated by its last
4 bytes fails with the frame-incomplete error. -/
theorem decompress_frameIncomplete_witness :
    decompressCore tdec 1 [3, 1, 2, 3] 1024
      = some (.error (.valueError "frame incomplete")) :=
  decompress_frameIncomplete tdec [3, 1, 2, 3] 1024 0 ⟨3, 4, true, false⟩ 1 3 (some 3)
    ⟨[], 3, 4, some 3⟩ (by decide) (by decide) rfl rfl (by decide) (by decide)

/-- C1: for every non-empty buffer `b` and valid preferences (valid block
size id, level not above `LZ4F_COMPRESSION_MAX`, any flag combination),
decompressing the result of one-shot compression returns `b`.  The external
LZ4F primitive is abstract; the hypotheses state its documented contract on
this frame: `LZ4F_compressFrame` succeeds within its own bound,
`LZ4F_getFrameInfo` reports the content size the engine stored
(`input.len`), and `LZ4F_decompress`, given the whole remainder and a
buffer of exactly that size, writes `b` and reports hint 0. -/
theorem roundTrip_compress_decompress {γ σ : Type} (cc : CmpCodec γ) (dc : DecCodec σ)
    (b frame : List Nat) (bid lvl : Int) (lk ck bck : Bool) (fuel : Nat)
    (info : FrameInfoT) (c0 h0 k : Nat) (s0 s1 : σ)
    (hb : ¬ b.length = 0)
    (hbid : validBlockSizeId bid = true)
    (hlvl : ¬ LZ4_COMPRESSION_MAX < lvl)
    (hframe : compress_run cc b bid lk ck lvl bck = .ok frame)
    (hfne : ¬ frame.length = 0)
    (hgfi : dc.getFrameInfo frame = .ok (info, c0, h0, s0))
    (hcs : info.contentSize = b.length)
    (hstep : dc.decompressStep s0 true b.length (frame.drop c0) = .ok ⟨b, k, 0, s1⟩) :
    compress cc b bid lk ck lvl bck = .ok frame
    ∧ decompress dc (fuel + 1) frame 1024 = some (.ok b) := by
  constructor
  · rw [compress, if_neg hb]
    simp only [hbid]
    rw [if_neg (by simp), if_neg hlvl]
    exact hframe
  · have hcs0 : info.contentSize ≠ 0 := by rw [hcs]; exact hb
    have hck : decide (info.contentSize ≠ 0) = true := by simp [hcs0]
    have hL : initialOutputLen info.contentSize 1024 (frame.drop c0).length
        = b.length := by
      rw [initialOutputLen, if_pos hcs0, hcs]
    rw [decompress,
        decompressCore_eq dc (fuel + 1) frame 1024 info c0 h0 s0 hfne (by decide) hgfi]
    rw [decompressLoop]
    rw [show (⟨[], initialOutputLen info.contentSize 1024 (frame.drop c0).length,
          initialOutputLen info.contentSize 1024 (frame.drop c0).length,
          frame.drop c0, 0, [], s0⟩ : DecLoop σ)
        = ⟨[], b.length, b.length, frame.drop c0, 0, [], s0⟩ by rw [hL]]
    rw [hck]
    rw [decompressBody_eq dc true true ⟨[], b.length, b.length, frame.drop c0, 0, [], s0⟩
          ⟨b, k, 0, s1⟩ hstep]
    simp only [if_pos rfl]
    simp [hL, Except.map]

/-- Witness for C1: `b = [1,2,3]` through the toy codec; the frame is
`[3,1,2,3,0,0,0,0]` and decompression returns `[1,2,3]`. -/
theorem roundTrip_compress_decompress_witness :
    compress tcmp [1, 2, 3] 0 true false 0 false = .ok [3, 1, 2, 3, 0, 0, 0, 0]
    ∧ decompress tdec 1 [3, 1, 2, 3, 0, 0, 0, 0] 1024 = some (.ok [1, 2, 3]) :=
  roundTrip_compress_decompress tcmp tdec [1, 2, 3] [3, 1, 2, 3, 0, 0, 0, 0] 0 0
    true false false 0 ⟨3, 4, true, false⟩ 1 7 7 (some 3) (some 3)
    (by decide) (by decide) (by decide) rfl (by decide) rfl rfl rfl

/-- Loop invariant of `duLoop`: if every already-appended chunk is exactly
`chunkLen` bytes and the current chunk's contents and free space add up to
`chunkLen` (which holds because the primitive never writes more than the
capacity it is given), then on success every returned chunk is nonempty and
at most `chunkLen` bytes, all but possibly the last are exactly `chunkLen`
bytes, and the loop stopped only with the input consumed or a zero hint. -/
theorem duLoop_props {σ : Type} (dc : DecCodec σ) (chunkLen : Nat) (hcl : 0 < chunkLen)
    (hsane : ∀ (s1 : σ) (cap : Nat) (src : List Nat) (out : StepOut σ),
       dc.decompressStep s1 false cap src = .ok out → out.written.length ≤ cap) :
    ∀ (fuel : Nat) (s : DUState σ) (r : DUResult σ),
      (∀ c ∈ s.chunks, c.length = chunkLen) →
      s.chunkAcc.length + s.chunkRem = chunkLen →
      duLoop dc chunkLen fuel s = some (.ok r) →
      (∀ c ∈ r.chunks.dropLast, c.length = chunkLen)
      ∧ (∀ c ∈ r.chunks, 0 < c.length ∧ c.length ≤ chunkLen)
      ∧ (r.leftover.length = 0 ∨ r.hint = 0) := by
  intro fuel
  induction fuel with
  | zero =>
    intro s r _ _ h
    exact absurd h (by simp [duLoop])
  | succ n ih =>
    intro s r hfull hinv hrun
    rw [duLoop] at hrun
    by_cases hc : s.inp.length ≠ 0 ∧ s.hint ≠ 0
    · rw [if_pos hc] at hrun
      by_cases hz : s.chunkRem = 0
      · simp only [if_pos hz] at hrun
        cases hstep : dc.decompressStep s.st false chunkLen s.inp with
        | error e =>
          rw [hstep] at hrun
          exact absurd hrun (by simp)
        | ok out =>
          rw [hstep] at hrun
          have hw : out.written.length ≤ chunkLen := hsane _ _ _ _ hstep
          refine ih ⟨out.state, s.inp.drop out.consumed, out.hint,
            chunkLen - out.written.length, [] ++ out.written,
            s.chunks ++ [s.chunkAcc]⟩ r ?_ ?_ hrun
          · intro c hm
            rcases List.mem_append.mp hm with hm | hm
            · exact hfull c hm
            · rcases List.mem_singleton.mp hm with rfl
              omega
          · simp only [List.nil_append]
            omega
      · simp only [if_neg hz] at hrun
        cases hstep : dc.decompressStep s.st false s.chunkRem s.inp with
        | error e =>
          rw [hstep] at hrun
          exact absurd hrun (by simp)
        | ok out =>
          rw [hstep] at hrun
          have hw : out.written.length ≤ s.chunkRem := hsane _ _ _ _ hstep
          refine ih ⟨out.state, s.inp.drop out.consumed, out.hint,
            s.chunkRem - out.written.length, s.chunkAcc ++ out.written,
            s.chunks⟩ r hfull ?_ hrun
          simp only [List.length_append]
          omega
    · rw [if_neg hc] at hrun
      simp only [Option.some.injEq, Except.ok.injEq] at hrun
      rw [← hrun]
      have hstop : s.inp.length = 0 ∨ s.hint = 0 := by
        rcases Decidable.not_and_iff_or_not.mp hc with h | h
        · exact Or.inl (by simpa using h)
        · exact Or.inr (by simpa using h)
      by_cases hlt : s.chunkRem < chunkLen
      · simp only [if_pos hlt]
        refine ⟨?_, ?_, hstop⟩
        · intro c hm
          rw [List.dropLast_concat] at hm
          exact hfull c hm
        · intro c hm
          rcases List.mem_append.mp hm with hm | hm
          · have := hfull c hm
            omega
          · rcases List.mem_singleton.mp hm with rfl
            simp
            omega
      · simp only [if_neg hlt]
        refine ⟨?_, ?_, hstop⟩
        · intro c hm
          exact hfull c (List.mem_of_mem_dropLast hm)
        · intro c hm
          have := hfull c hm
          omega

/-- C9: `decompress_update` decodes into fixed-size chunks: on every
successful call the returned Python list is a sequence of data chunks
followed by the input hint as its last element; every data chunk is
nonempty and at most `chunk_len` bytes; all but possibly the last are full
`chunk_len`-byte chunks; and the underlying loop stopped only because all
input was consumed or the primitive reported hint 0. -/
theorem decompressUpdate_chunking {σ : Type} (dc : DecCodec σ) (st0 : σ)
    (b : List Nat) (arg : Int) (fuel : Nat) (pyList : List (List Nat ⊕ Nat)) (st1 : σ)
    (hsane : ∀ (s1 : σ) (cap : Nat) (src : List Nat) (out : StepOut σ),
       dc.decompressStep s1 false cap src = .ok out → out.written.length ≤ cap)
    (hrun : decompress_update dc st0 b arg fuel = some (.ok (pyList, st1))) :
    ∃ (chunks : List (List Nat)) (hint : Nat),
      pyList = chunks.map Sum.inl ++ [Sum.inr hint]
      ∧ pyList.getLast? = some (Sum.inr hint)
      ∧ (∀ c ∈ chunks.dropLast, c.length = storeIntIntoSizeT arg)
      ∧ (∀ c ∈ chunks, 0 < c.length ∧ c.length ≤ storeIntIntoSizeT arg)
      ∧ ∃ rr : DUResult σ,
          duLoop dc (storeIntIntoSizeT arg) fuel
              ⟨st0, b, 1, storeIntIntoSizeT arg, [], []⟩ = some (.ok rr)
          ∧ rr.chunks = chunks ∧ rr.hint = hint
          ∧ (rr.leftover.length = 0 ∨ rr.hint = 0) := by
  rw [decompress_update] at hrun
  by_cases hb : b.length = 0
  · rw [if_pos hb] at hrun
    exact absurd hrun (by simp)
  rw [if_neg hb] at hrun
  by_cases hcl : storeIntIntoSizeT arg ≤ 0
  · simp only [if_pos hcl] at hrun
    exact absurd hrun (by simp)
  simp only [if_neg hcl] at hrun
  have hcl2 : 0 < storeIntIntoSizeT arg := Nat.pos_of_ne_zero (by omega)
  split at hrun
  · exact absurd hrun (by simp)
  · exact absurd hrun (by simp)
  · rename_i rr heq
    simp only [Option.some.injEq, Except.ok.injEq, Prod.mk.injEq] at hrun
    obtain ⟨hpy, hst⟩ := hrun
    have hprops := duLoop_props dc (storeIntIntoSizeT arg) hcl2 hsane fuel
      ⟨st0, b, 1, storeIntIntoSizeT arg, [], []⟩ rr (by simp) (by simp) heq
    refine ⟨rr.chunks, rr.hint, hpy.symm, ?_, hprops.1, hprops.2.1,
      rr, heq, rfl, rfl, hprops.2.2⟩
    rw [← hpy]
    exact List.getLast?_concat _

/-- Sanity of the witness step function: it never writes more than the
capacity it is given. -/
theorem wStep_sane : ∀ (s1 cap : Nat) (src : List Nat) (out : StepOut Nat),
    wdec.decompressStep s1 false cap src = .ok out → out.written.length ≤ cap := by
  intro s1 cap src out h
  simp only [wdec, wStep, Except.ok.injEq] at h
  rw [← h]
  simp

/-- Witness for C9: feeding 5 bytes through the one-byte-at-a-time step
with `chunk_len = 2` yields chunks `[10,20]`, `[30,40]`, `[50]` and a
trailing hint 0. -/
theorem decompressUpdate_chunking_witness :
    ∃ (chunks : List (List Nat)) (hint : Nat),
      ([Sum.inl [10, 20], Sum.inl [30, 40], Sum.inl [50], Sum.inr 0]
          : List (List Nat ⊕ Nat)) = chunks.map Sum.inl ++ [Sum.inr hint]
      ∧ ([Sum.inl [10, 20], Sum.inl [30, 40], Sum.inl [50], Sum.inr 0]
          : List (List Nat ⊕ Nat)).getLast? = some (Sum.inr hint)
      ∧ (∀ c ∈ chunks.dropLast, c.length = storeIntIntoSizeT 2)
      ∧ (∀ c ∈ chunks, 0 < c.length ∧ c.length ≤ storeIntIntoSizeT 2)
      ∧ ∃ rr : DUResult Nat,
          duLoop wdec (storeIntIntoSizeT 2) 10
              ⟨0, [10, 20, 30, 40, 50], 1, storeIntIntoSizeT 2, [], []⟩ = some (.ok rr)
          ∧ rr.chunks = chunks ∧ rr.hint = hint
          ∧ (rr.leftover.length = 0 ∨ rr.hint = 0) :=
  decompressUpdate_chunking wdec 0 [10, 20, 30, 40, 50] 2 10
    [Sum.inl [10, 20], Sum.inl [30, 40], Sum.inl [50], Sum.inr 0] 0
    wStep_sane (by decide)


end Lz4Framed
